import Mathlib

/-!
Shallow embedding of the three-stage round-robin tennis scheduler
(`benchAlloc.py`, `teamAlloc.py`, `courtAlloc.py`).

Each CP-SAT stage builds boolean decision variables, posts linear
constraints over them, and enumerates solutions through an incumbent
callback.  We embed a *solution* of a stage as a boolean-valued function
and the stage's constraint set as a decidable proposition over that
function, translating every `model.Add(...)` line.  Reified indicator
variables (`b_var` with `OnlyEnforceIf(b_var)` / `OnlyEnforceIf(b_var.Not())`
pairs) are forced, in any solution, to equal the truth value of the
linear condition they reify, so they appear here as the corresponding
`Bool` expressions rather than as separate variables.

The incumbent callbacks (`print_schedule` of `teamAlloc.py` and
`courtAlloc.py`) are embedded as pure state-transition functions on the
callback's mutable fields.
-/

namespace RoundRobin

/-- `ind b` is the 0/1 value a boolean CP-SAT variable contributes to a
linear sum. -/
def ind (b : Bool) : Nat := if b then 1 else 0

/-- `sumTo n f = f 0 + f 1 + ... + f (n-1)`: the shallow embedding of a
Python `sum` over `range(n)`. -/
def sumTo : Nat → (Nat → Nat) → Nat
  | 0, _ => 0
  | n + 1, f => sumTo n f + f n

theorem sumTo_eq_sum_range (n : Nat) (f : Nat → Nat) :
    sumTo n f = ∑ i in Finset.range n, f i := by
  induction n with
  | zero => rfl
  | succ n ih => rw [sumTo, ih, Finset.sum_range_succ]

theorem sumTo_eq_zero {n : Nat} {f : Nat → Nat} (h : sumTo n f = 0) :
    ∀ i, i < n → f i = 0 := by
  induction n with
  | zero => intro i hi; omega
  | succ n ih =>
    rw [sumTo] at h
    intro i hi
    rcases Nat.lt_succ_iff_lt_or_eq.mp hi with hlt | rfl
    · exact ih (by omega) i hlt
    · omega

theorem sumTo_ind_eq_card (n : Nat) (f : Nat → Bool) :
    sumTo n (fun i => ind (f i)) =
      ((Finset.range n).filter (fun i => f i = true)).card := by
  rw [sumTo_eq_sum_range, Finset.card_filter]
  refine Finset.sum_congr rfl (fun i _ => ?_)
  by_cases h : f i <;> simp [ind, h]

/-! ## benchAlloc.py : BenchPlanner

Derived quantities of `main` (`benchAlloc.py` lines 136-146).
`num_bench = num_players - num_courts*4` is a Python `int`, hence can be
negative; we keep it in `Int`.  `math.floor(a/b)` and `math.ceil(a/b)`
on nonnegative Python ints are floor and ceiling division, embedded with
`Int.fdiv` (floor division). -/

/-- `num_bench = num_players - (num_courts*num_players_per_court)`
(`benchAlloc.py` line 136, `num_players_per_court = 4`). -/
def numBench (np nc : Nat) : Int := (np : Int) - 4 * (nc : Int)

/-- `math.ceil(a / b)` for integer `a`, `b` with `b ≠ 0`:
`⌈a/b⌉ = -⌊-a/b⌋`. -/
def ceilDivI (a b : Int) : Int := -((-a).fdiv b)

/-- `min_bench = math.floor(num_rounds*num_bench/num_players)`
(`benchAlloc.py` line 142). -/
def minBenchI (np nr nc : Nat) : Int := ((nr : Int) * numBench np nc).fdiv np

/-- `max_bench = math.ceil(num_rounds*num_bench/num_players)`
(`benchAlloc.py` line 143). -/
def maxBenchI (np nr nc : Nat) : Int := ceilDivI ((nr : Int) * numBench np nc) np

/-- `distance_on_bench = math.ceil(num_players/num_bench) - 2`
(`benchAlloc.py` line 144).  Only evaluated when `num_bench ≠ 0`;
the `num_bench = 0` case raises `ZeroDivisionError` in Python and is
modelled in `benchPrelude` below. -/
def distOnBench (np nc : Nat) : Int := ceilDivI np (numBench np nc) - 2

/-- The data-preparation prologue of `benchAlloc.main`
(`benchAlloc.py` lines 131-146), up to but not including model
construction.  Crucially, line 140 is the *bare expression* `exit` —
the built-in is referenced but never called, so when `num_bench == 0`
execution does **not** stop: it falls through to lines 142-144, where
`math.ceil(num_players/num_bench)` raises `ZeroDivisionError`
(`num_players/num_players` at line 142 would likewise raise when
`num_players == 0`).  Errors are modelled with `Except.error`. -/
def benchPrelude (np nr nc : Nat) : Except String (Int × Int × Int) :=
  let nb : Int := numBench np nc
  -- line 138-140: `if num_bench==0:` prints and evaluates bare `exit`
  -- (a no-op); execution continues either way.
  if np = 0 then Except.error "ZeroDivisionError"  -- line 142: division by num_players
  else
    let minb := minBenchI np nr nc        -- line 142
    let maxb := maxBenchI np nr nc        -- line 143
    if nb = 0 then Except.error "ZeroDivisionError"  -- line 144: division by num_bench
    else Except.ok (minb, maxb, distOnBench np nc)

/-- The BenchPlanner constraint set (`benchAlloc.py` lines 158-205) on a
solution `bench : player → round → Bool`:
constraint 1 (lines 167-171): each round benches exactly `num_bench`;
constraint 2 (lines 176-184): each player's total bench count lies in
`[min_bench, max_bench]` (the reified `b_var`s equal the `bench` values
they indicate);
constraint 3 (lines 191-205): per player, the sum over all
`(t1, t2 ∈ range(t1+1, t1+1+distance_on_bench))` of the indicator
"benched at both `t1` and `t2 % num_rounds`" is 0.  A negative
`distance_on_bench` gives an empty Python `range`, matched here by
`Int.toNat` sending negatives to `0`. -/
def BenchModel (np nr nc : Nat) (bench : Nat → Nat → Bool) : Prop :=
  (∀ r, r < nr → (sumTo np (fun p => ind (bench p r)) : Int) = numBench np nc)
  ∧ (∀ p, p < np →
      minBenchI np nr nc ≤ (sumTo nr (fun r => ind (bench p r)) : Int)
      ∧ (sumTo nr (fun r => ind (bench p r)) : Int) ≤ maxBenchI np nr nc)
  ∧ (∀ p, p < np →
      sumTo nr (fun t1 => sumTo (distOnBench np nc).toNat
        (fun k => ind (bench p t1 && bench p ((t1 + 1 + k) % nr)))) = 0)

instance (np nr nc : Nat) (bench : Nat → Nat → Bool) :
    Decidable (BenchModel np nr nc bench) := by
  unfold BenchModel; exact inferInstance

/-- `write_bench` (`benchAlloc.py` lines 65-74): flatten the bench
matrix round-major, appending the 1-based id `player+1` for each
benched player, and dump the list as JSON. -/
def writeBench (np nr : Nat) (bench : Nat → Nat → Bool) : List Int :=
  (List.range nr).flatMap (fun r =>
    ((List.range np).filter (fun p => bench p r)).map
      (fun p : Nat => (p : Int) + 1))

/-! ## teamAlloc.py : GroupPairer

A solution assigns `games : player → round → court → Bool` over courts
`0 .. num_courts` (index `num_courts` is the virtual bench court,
`benchcourt = num_courts`, line 211) and
`duo : player → round → slot → Bool` over slots `0 .. 2*num_courts - 1`
(slot `2*c` and `2*c+1` are the two sides of court `c`). -/

/-- The number of `(round, duo-slot)` combinations in which `p1` and
`p2` occupy the same duo slot, i.e. are partnered (cf. the indicator
sum of constraint 7, `teamAlloc.py` lines 327-345). -/
def partnerCount (nr nc : Nat) (duo : Nat → Nat → Nat → Bool) (p1 p2 : Nat) : Nat :=
  sumTo nr (fun r => sumTo (2 * nc) (fun s => ind (duo p1 r s && duo p2 r s)))

/-- The number of `(round, played-court)` combinations in which `p1`
and `p2` are both on that court (cf. the indicator sum of constraint 5,
`teamAlloc.py` lines 285-296). -/
def sharedCount (nr nc : Nat) (games : Nat → Nat → Nat → Bool) (p1 p2 : Nat) : Nat :=
  sumTo nr (fun r => sumTo nc (fun c => ind (games p1 r c && games p2 r c)))

/-- The GroupPairer constraint set (`teamAlloc.py` lines 222-345) on a
solution `(games, duo)`:
constraint 1 (lines 231-236): each played court seats exactly 4;
constraint 2 (lines 240-246) generates **no** constraint at all: its
loop runs over `all_bench = range(num_courts+1, num_courts+1)`
(line 210), which is the empty range, so nothing is added;
constraint 3 (lines 250-252): each player is on exactly one of
courts `0..num_courts` (bench included) per round;
constraint 4 (lines 256-280) pins bench players from the interchange
file and is modelled separately (`readBench`, `BenchPinned`); the
`benchVar` booleans it also introduces (lines 277-280) are constrained
equal to the bench column of `games` and carry no extra content;
constraint 5 (lines 285-296): every unordered pair shares a played
court at least once;
duo linking (lines 300-307): a player's two duo slots of court `c`
sum to the player's occupancy of court `c`;
constraint 6 (lines 312-321): each duo slot holds exactly 2 players;
constraint 7 (lines 327-345): the partnering indicators of every
unordered pair sum to less than 2. -/
def TeamModel (np nr nc : Nat) (games duo : Nat → Nat → Nat → Bool) : Prop :=
  (∀ r, r < nr → ∀ c, c < nc → sumTo np (fun p => ind (games p r c)) = 4)
  ∧ (∀ p, p < np → ∀ r, r < nr →
      sumTo (nc + 1) (fun c => ind (games p r c)) = 1)
  ∧ (∀ p1, p1 < np → ∀ p2, p2 < np → p1 < p2 → 0 < sharedCount nr nc games p1 p2)
  ∧ (∀ p, p < np → ∀ r, r < nr → ∀ c, c < nc →
      ind (duo p r (2 * c)) + ind (duo p r (2 * c + 1)) = ind (games p r c))
  ∧ (∀ r, r < nr → ∀ c, c < nc →
      sumTo np (fun p => ind (duo p r (2 * c))) = 2
      ∧ sumTo np (fun p => ind (duo p r (2 * c + 1))) = 2)
  ∧ (∀ p1, p1 < np → ∀ p2, p2 < np → p1 < p2 → partnerCount nr nc duo p1 p2 < 2)

instance (np nr nc : Nat) (games duo : Nat → Nat → Nat → Bool) :
    Decidable (TeamModel np nr nc games duo) := by
  unfold TeamModel; exact inferInstance

/-- The `num_bench` consecutive entries of the flat bench file consumed
for round `r` (`teamAlloc.py` lines 266-272: the running `count` equals
`r*num_bench + i` at round `r`, inner step `i`). -/
def benchRow (nb : Nat) (lst : List Int) (r : Nat) : List Int :=
  (lst.drop (r * nb)).take nb

/-- Constraint 4 of GroupPairer (`teamAlloc.py` line 271): every player
id recorded in the file for round `r` is pinned onto the bench court. -/
def BenchPinned (nr nc nb : Nat) (lst : List Int)
    (games : Nat → Nat → Nat → Bool) : Prop :=
  ∀ r, r < nr → ∀ e ∈ benchRow nb lst r, games (e - 1).toNat r nc = true

instance (nr nc nb : Nat) (lst : List Int) (games : Nat → Nat → Nat → Bool) :
    Decidable (BenchPinned nr nc nb lst games) := by
  unfold BenchPinned; exact inferInstance

/-- Translate a prefix of bench-file entries to 0-based player indices,
failing on any entry outside `[1, num_players]`: for such an entry the
Python code raises before `solver.Solve` — a `KeyError` at
`games[(bench_list[count]-1, round, benchcourt)]` (line 271, the
`games` dict only holds player keys in `[0, num_players)`), or an
`IndexError` at `bench_assignements[bench_list[count]-1]` (line 270)
when `bench_list[count] - 1 < -num_players`. -/
def readIds (np : Nat) : List Int → Option (List Nat)
  | [] => some []
  | e :: rest =>
    if 1 ≤ e ∧ e ≤ (np : Int) then
      (readIds np rest).map (fun t => (e - 1).toNat :: t)
    else none

/-- The bench-file processing of GroupPairer (`teamAlloc.py` lines
256-280), returning the `bench_assignements` matrix
(player-major, `num_players × num_rounds`, line 263) on success and
`none` when the Python code raises before `solver.Solve`:
an `IndexError` at `bench_list[count]` (line 269) when the file holds
fewer than `num_bench * num_rounds` entries, or the out-of-range
failures described at `readIds`.  Entries beyond index
`num_bench * num_rounds - 1` are never touched (the loops consume
exactly `num_bench` entries per round). -/
def readBench (np nr nb : Nat) (lst : List Int) : Option (List (List Bool)) :=
  if lst.length < nb * nr then none
  else
    match readIds np (lst.take (nb * nr)) with
    | none => none
    | some ids =>
      some ((List.range np).map (fun p => (List.range nr).map (fun r =>
        decide (p ∈ (ids.drop (r * nb)).take nb))))

/-- The bench matrix `bench : player → round → Bool` rendered in the
same player-major list-of-lists shape as `bench_assignements`. -/
def benchMatrixOf (np nr : Nat) (bench : Nat → Nat → Bool) : List (List Bool) :=
  (List.range np).map (fun p => (List.range nr).map (fun r => bench p r))

/-- The incumbent-acceptance logic of
`TeamAllocationSolutionPrinter.print_schedule` (`teamAlloc.py` lines
77-101), as a function of the mutable state `(best, better)`
(initialised at lines 48-49) and the two metrics of the found solution:
`spread = maxCount - minCount` and `same = sameplayers`.
Returns `((best', better'), printit, strictTaken)` where `strictTaken`
is the value of the strict-improvement test at line 97 — evaluated
*after* line 96 has already overwritten `self._best` with the new
spread. -/
def teamCallback (st : Nat × Nat) (spread same : Nat) :
    (Nat × Nat) × Bool × Bool :=
  if spread ≤ st.1 then            -- line 81
    let best := spread             -- line 96: self._best = maxCount-minCount
    let strict := decide (spread < best)  -- line 97: if maxCount-minCount < self._best
    if same ≤ st.2 then            -- line 99
      ((best, same), true, strict)          -- lines 100-101
    else
      ((best, st.2), strict, strict)
  else
    (st, false, false)

/-! ## courtAlloc.py : CourtAssigner -/

/-- Python `max` over a (nonempty) list of naturals. -/
def listMax (l : List Nat) : Nat := l.foldl max 0

/-- The incumbent-acceptance logic of
`PlayersPartialSolutionPrinter.print_schedule` (`courtAlloc.py` lines
91-102), as a function of the mutable state
`(bestCourtDiffMax, numPlayersWith_best)` (initialised at lines 50-51)
and the per-player spread list `playersCourtDiffMax`.  The two `if`s of
the source test disjoint conditions (`==` then `>`), so their
sequential composition is the nesting below. -/
def courtStep (best nbest : Nat) (diffs : List Nat) : (Nat × Nat) × Bool :=
  let m := listMax diffs
  let cnt := diffs.count m
  if best = m then                      -- line 92
    if nbest ≥ cnt then ((best, cnt), true)   -- lines 96-98
    else ((best, nbest), false)
  else if best > m then ((m, cnt), true)      -- lines 99-102
  else ((best, nbest), false)

/-! ## Concrete solutions used to witness the theorems -/

/-- A GroupPairer solution for `num_players = 4`, `num_rounds = 1`,
`num_courts = 1` (`num_bench = 0`): all four players on court 0. -/
def g4 (_p _r c : Nat) : Bool := c == 0

/-- Duos for `g4`: round 0 pairs `{0,1}` against `{2,3}`. -/
def duo4 (p _r s : Nat) : Bool :=
  if s == 0 then p == 0 || p == 1
  else if s == 1 then p == 2 || p == 3
  else false

/-- A GroupPairer solution for `num_players = 5`, `num_rounds = 5`,
`num_courts = 1` (`num_bench = 1`): player `r` is benched in round `r`
(court 1 is the bench court), the other four play court 0. -/
def g5 (p r c : Nat) : Bool :=
  if c == 0 then !(p == r) else if c == 1 then p == r else false

/-- Duos for `g5`, partnering every unordered pair exactly once:
round 0: `{1,2}` vs `{3,4}`; round 1: `{2,3}` vs `{4,0}`;
round 2: `{0,3}` vs `{1,4}`; round 3: `{0,1}` vs `{2,4}`;
round 4: `{0,2}` vs `{1,3}`. -/
def duo5 (p r s : Nat) : Bool :=
  match r, s with
  | 0, 0 => p == 1 || p == 2
  | 0, 1 => p == 3 || p == 4
  | 1, 0 => p == 2 || p == 3
  | 1, 1 => p == 4 || p == 0
  | 2, 0 => p == 0 || p == 3
  | 2, 1 => p == 1 || p == 4
  | 3, 0 => p == 0 || p == 1
  | 3, 1 => p == 2 || p == 4
  | 4, 0 => p == 0 || p == 2
  | 4, 1 => p == 1 || p == 3
  | _, _ => false

/-- The bench file matching `g5`: one player per round, ids 1-based. -/
def benchFile5 : List Int := [1, 2, 3, 4, 5]

/-- A BenchPlanner solution for `num_players = 6`, `num_rounds = 6`,
`num_courts = 1` (`num_bench = 2`, `distance_on_bench = 1`): rounds
bench `{0,1}, {2,3}, {4,5}, {0,1}, {2,3}, {4,5}`. -/
def cbench6 (p r : Nat) : Bool := p == 2 * (r % 3) || p == 2 * (r % 3) + 1

/-- A BenchPlanner solution for `num_players = 10`, `num_rounds = 5`,
`num_courts = 2` (`num_bench = 2`, `distance_on_bench = 3`): round `r`
benches `{2r, 2r+1}`, each player exactly once. -/
def bench10 (p r : Nat) : Bool := p == 2 * r || p == 2 * r + 1

/-! ## Claim theorems -/

/-- C1: the spec says that when `num_bench == 0` (default configuration
`num_players=12, num_rounds=6, num_courts=3`) the BenchPlanner stage is
skipped without any error.  The code contradicts its own intent
(`print(f"no player on bench...exiting")`): line 140 is the bare
expression `exit`, which never calls the built-in, so execution
continues to line 144 and raises `ZeroDivisionError` when computing
`math.ceil(num_players/num_bench)`.  This theorem evaluates the
embedded prologue at the failing input. -/
theorem benchPrelude_zero_bench_raises :
    benchPrelude 12 6 3 = Except.error "ZeroDivisionError" := rfl

/-- C3 counterexample: the claim that *every* bench file whose
cardinality is inconsistent with `num_bench` makes GroupPairer fail
before `solver.Solve` is false.  For `num_players = 14`,
`num_rounds = 2` (`num_bench = 2`), a file of 5 entries has the wrong
array length (expected `2*2 = 4`), yet the read loop consumes only the
first 4 entries and succeeds, so model building continues and
`solver.Solve` is invoked. -/
theorem readBench_extra_entries_accepted :
    ¬ (([1, 2, 3, 4, 5] : List Int).length = 2 * 2)
    ∧ (readBench 14 2 2 [1, 2, 3, 4, 5]).isSome = true := by decide

/-- C3 (amended): a bench file with *fewer* than
`num_bench * num_rounds` entries does make GroupPairer fail before
`solver.Solve` is invoked (an `IndexError` at `bench_list[count]`,
`teamAlloc.py` line 269). -/
theorem readBench_short_input_fails (np nr nb : Nat) (lst : List Int)
    (h : lst.length < nb * nr) : readBench np nr nb lst = none := by
  simp [readBench, h]

/-- C3 witness: the amended theorem applied at a 1-entry file for
`num_players = 14`, `num_rounds = 2`, `num_bench = 2`. -/
theorem readBench_short_input_fails_witness :
    ([1] : List Int).length < 2 * 2 ∧ readBench 14 2 2 [1] = none :=
  ⟨by decide, readBench_short_input_fails 14 2 2 [1] (by decide)⟩

/-- C4 counterexample: the claim that CourtAssigner's callback never
emits a solution that merely ties on both axes is false.  Starting from
the initial state `(bestCourtDiffMax, numPlayersWith_best) =
(num_rounds, num_players) = (6, 12)` of the default configuration, a
solution with per-player spreads `[2,2,2,0,0,0,0,0,0,0,0,0]`
(maximum spread 2, 3 players at the maximum) strictly improves and is
emitted, moving the state to `(2, 3)`; a second solution with the very
same spreads ties on both `bestCourtDiffMax` and the tie count, yet the
`>=` comparison at `courtAlloc.py` line 96 emits it again. -/
theorem courtStep_emits_double_tie :
    courtStep 6 12 [2, 2, 2, 0, 0, 0, 0, 0, 0, 0, 0, 0] = ((2, 3), true)
    ∧ courtStep 2 3 [2, 2, 2, 0, 0, 0, 0, 0, 0, 0, 0, 0] = ((2, 3), true) := by
  decide

/-- C4 (amended): the incumbent callback of CourtAssigner emits a found
solution iff it strictly lowers the tracked `bestCourtDiffMax`, or, at
an unchanged `bestCourtDiffMax`, its count of players tied at that
maximum spread is *less than or equal to* the stored count — ties on
both axes are emitted too, favouring the most recent solution. -/
theorem courtStep_emits_iff (best nbest : Nat) (diffs : List Nat) :
    (courtStep best nbest diffs).2 = true ↔
      (listMax diffs < best
        ∨ (listMax diffs = best ∧ diffs.count (listMax diffs) ≤ nbest)) := by
  simp only [courtStep]
  split_ifs with h1 h2 h3 <;> simp <;> omega

/-- C10: in GroupPairer's incumbent callback, line 96 overwrites
`self._best` with the new spread *before* line 97 compares the spread
strictly against it, so the strict-improvement branch is never taken;
the stored best spread is non-increasing and is lowered to the new
spread whenever `spread ≤ best`, even for solutions that are not
emitted; and a solution is emitted exactly when `spread ≤ best` and the
consecutive-round same-four-players metric satisfies `same ≤ better`. -/
theorem teamCallback_spec (best better spread same : Nat) :
    (teamCallback (best, better) spread same).2.2 = false
    ∧ (teamCallback (best, better) spread same).1.1 ≤ best
    ∧ (spread ≤ best → (teamCallback (best, better) spread same).1.1 = spread)
    ∧ ((teamCallback (best, better) spread same).2.1 = true ↔
        (spread ≤ best ∧ same ≤ better)) := by
  simp only [teamCallback]
  split_ifs with h1 h2 <;> simp <;> omega

/-- C10 witness: the specification of the callback applied at state
`(best, better) = (6, 78)` (the initial state of the default
configuration) and a solution with spread 3, metric 5. -/
theorem teamCallback_spec_witness :
    3 ≤ 6 ∧ (teamCallback (6, 78) 3 5).1.1 = 3 :=
  ⟨by decide, (teamCallback_spec 6 78 3 5).2.2.1 (by decide)⟩

/-- C2: in every solution of GroupPairer's constraint model, every
unordered pair of players occupies the same duo slot (is partnered) in
at most one `(round, duo-slot)` combination: constraint 7 bounds the
pair's partnering indicators by `sum < 2`. -/
theorem partner_uniqueness (np nr nc : Nat)
    (games duo : Nat → Nat → Nat → Bool)
    (hm : TeamModel np nr nc games duo) :
    ∀ p1, p1 < np → ∀ p2, p2 < np → p1 < p2 →
      partnerCount nr nc duo p1 p2 ≤ 1 := by
  intro p1 h1 p2 h2 h12
  exact Nat.lt_succ_iff.mp (hm.2.2.2.2.2 p1 h1 p2 h2 h12)

/-- C2 witness: partner uniqueness applied to a concrete solution
(4 players, 1 round, 1 court) at the pair `(0, 1)`. -/
theorem partner_uniqueness_witness :
    TeamModel 4 1 1 g4 duo4 ∧ partnerCount 1 1 duo4 0 1 ≤ 1 :=
  ⟨by decide,
   partner_uniqueness 4 1 1 g4 duo4 (by decide) 0 (by decide) 1 (by decide)
     (by decide)⟩

/-- C6: in every solution of BenchPlanner's constraint model
(`num_bench ≥ 1`), each round benches exactly `num_bench` players and
each player's total bench count lies between `min_bench` and
`max_bench` inclusive. -/
theorem bench_counts (np nr nc : Nat) (bench : Nat → Nat → Bool)
    (hm : BenchModel np nr nc bench) (hnb : 1 ≤ numBench np nc) :
    (∀ r, r < nr →
      ((((Finset.range np).filter (fun p => bench p r = true)).card : Int)
        = numBench np nc))
    ∧ (∀ p, p < np →
        minBenchI np nr nc
          ≤ (((Finset.range nr).filter (fun r => bench p r = true)).card : Int)
        ∧ (((Finset.range nr).filter (fun r => bench p r = true)).card : Int)
          ≤ maxBenchI np nr nc) := by
  refine ⟨fun r hr => ?_, fun p hp => ?_⟩
  · rw [← sumTo_ind_eq_card]
    exact hm.1 r hr
  · rw [← sumTo_ind_eq_card]
    exact hm.2.1 p hp

/-- C6 witness: the bench-count bounds applied to a concrete solution
(10 players, 5 rounds, 2 courts, `num_bench = 2`, `min_bench =
max_bench = 1`) at round 0 and player 0. -/
theorem bench_counts_witness :
    BenchModel 10 5 2 bench10 ∧ (1 : Int) ≤ numBench 10 2
    ∧ (((Finset.range 10).filter (fun p => bench10 p 0 = true)).card : Int)
        = numBench 10 2
    ∧ minBenchI 10 5 2
        ≤ (((Finset.range 5).filter (fun r => bench10 0 r = true)).card : Int) :=
  ⟨by decide, by decide,
   (bench_counts 10 5 2 bench10 (by decide) (by decide)).1 0 (by decide),
   ((bench_counts 10 5 2 bench10 (by decide) (by decide)).2 0 (by decide)).1⟩

/-- C5 counterexample: the claimed window property fails when
`distance_on_bench ≤ 1`.  For `num_players = 6`, `num_rounds = 6`,
`num_courts = 1` we get `num_bench = 2 ≥ 1` and `distance_on_bench =
ceil(6/2) - 2 = 1`; the exhibited bench matrix satisfies the whole
BenchPlanner model, yet player 0 is benched in *every* round of the
length-1 window starting at round 0 (constraint 3 only rules out two
bench appearances at distinct rounds within the distance, never a
single appearance). -/
theorem bench_window_fails :
    BenchModel 6 6 1 cbench6 ∧ 1 ≤ numBench 6 1
    ∧ (∀ i, i < (distOnBench 6 1).toNat → cbench6 0 ((0 + i) % 6) = true) := by
  decide

/-- C5 (amended): in every solution of BenchPlanner's constraint model
with `num_bench ≥ 1` **and** `distance_on_bench ≥ 2`, no player is
benched in every one of the rounds `r, r+1, …, r+distance_on_bench-1`
taken modulo `num_rounds`. -/
theorem bench_window_spacing (np nr nc : Nat) (bench : Nat → Nat → Bool)
    (hm : BenchModel np nr nc bench) (hnb : 1 ≤ numBench np nc)
    (hd : 2 ≤ distOnBench np nc) :
    ∀ p, p < np → ∀ r, r < nr →
      ¬ (∀ i, i < (distOnBench np nc).toNat → bench p ((r + i) % nr) = true) := by
  intro p hp r hr hall
  have hd2 : 2 ≤ (distOnBench np nc).toNat := by omega
  have h0 : bench p r = true := by
    have := hall 0 (by omega)
    rwa [Nat.add_zero, Nat.mod_eq_of_lt hr] at this
  have h1 : bench p ((r + 1) % nr) = true := hall 1 (by omega)
  have hz := hm.2.2 p hp
  have hz1 := sumTo_eq_zero hz r hr
  have hz2 := sumTo_eq_zero hz1 0 (by omega)
  rw [Nat.add_zero, h0, h1] at hz2
  simp [ind] at hz2

/-- C5 witness: the amended spacing property applied to a concrete
solution (10 players, 5 rounds, 2 courts, `distance_on_bench = 3`) at
player 0, round 0. -/
theorem bench_window_spacing_witness :
    BenchModel 10 5 2 bench10 ∧ 2 ≤ distOnBench 10 2
    ∧ ¬ (∀ i, i < (distOnBench 10 2).toNat → bench10 0 ((0 + i) % 5) = true) :=
  ⟨by decide, by decide,
   bench_window_spacing 10 5 2 bench10 (by decide) (by decide) (by decide) 0
     (by decide) 0 (by decide)⟩

/-- C8: (i) in every solution of GroupPairer's constraint model, every
unordered player pair shares a played court at least once
(constraint 5); (ii) the constraint is never skipped: for the
configuration `num_players = 5`, `num_rounds = 1`, `num_courts = 1`
(too few rounds for the benched player ever to meet the others) the
model admits no solution at all, so the stage can only end Infeasible
rather than produce a schedule. -/
theorem pair_sharing_and_infeasibility :
    (∀ np nr nc : Nat, ∀ games duo : Nat → Nat → Nat → Bool,
      TeamModel np nr nc games duo →
      ∀ p1, p1 < np → ∀ p2, p2 < np → p1 < p2 →
        1 ≤ sharedCount nr nc games p1 p2)
    ∧ ¬ ∃ games duo : Nat → Nat → Nat → Bool, TeamModel 5 1 1 games duo := by
  constructor
  · intro np nr nc games duo hm p1 h1 p2 h2 h12
    exact hm.2.2.1 p1 h1 p2 h2 h12
  · rintro ⟨g, d, hm⟩
    have hc1 : sumTo 5 (fun p => ind (g p 0 0)) = 4 :=
      hm.1 0 (by omega) 0 (by omega)
    have hfalse : ∃ p, p < 5 ∧ g p 0 0 = false := by
      by_contra hno
      push_neg at hno
      have hall : ∀ p, p < 5 → g p 0 0 = true := by
        intro p hp
        cases h : g p 0 0 with
        | false => exact absurd h (hno p hp)
        | true => rfl
      have : sumTo 5 (fun p => ind (g p 0 0)) = 5 := by
        simp [sumTo, ind, hall 0 (by omega), hall 1 (by omega),
          hall 2 (by omega), hall 3 (by omega), hall 4 (by omega)]
      omega
    obtain ⟨p, hp, hpf⟩ := hfalse
    rcases Nat.eq_zero_or_pos p with rfl | hppos
    · have h5 := hm.2.2.1 0 (by omega) 1 (by omega) (by omega)
      have : sharedCount 1 1 g 0 1 = ind (g 0 0 0 && g 1 0 0) := by
        simp [sharedCount, sumTo]
      rw [this, hpf] at h5
      simp [ind] at h5
    · have h5 := hm.2.2.1 0 (by omega) p hp hppos
      have : sharedCount 1 1 g 0 p = ind (g 0 0 0 && g p 0 0) := by
        simp [sharedCount, sumTo]
      rw [this, hpf] at h5
      simp [ind] at h5

/-- C8 witness: the pair-sharing bound applied to a concrete solution
(4 players, 1 round, 1 court) at the pair `(0, 1)`. -/
theorem pair_sharing_and_infeasibility_witness :
    TeamModel 4 1 1 g4 duo4 ∧ 1 ≤ sharedCount 1 1 g4 0 1 :=
  ⟨by decide,
   pair_sharing_and_infeasibility.1 4 1 1 g4 duo4 (by decide) 0 (by decide) 1
     (by decide) (by decide)⟩

/-- In every solution of GroupPairer's model, the bench column of the
`games` matrix holds exactly `num_players - 4*num_courts` players per
round.  Note this is *not* constraint 2 (which is generated over the
empty range `all_bench` and therefore never posted): it follows from
constraint 1 (4 players per played court) and constraint 3 (each player
on exactly one of the `num_courts + 1` courts) by counting. -/
theorem bench_column_card (np nr nc : Nat) (games duo : Nat → Nat → Nat → Bool)
    (hm : TeamModel np nr nc games duo) (r : Nat) (hr : r < nr) :
    4 * nc + ((Finset.range np).filter (fun p => games p r nc = true)).card
      = np := by
  have hrow : ∀ p ∈ Finset.range np,
      ∑ c in Finset.range (nc + 1), ind (games p r c) = 1 := by
    intro p hp
    rw [← sumTo_eq_sum_range]
    exact hm.2.1 p (Finset.mem_range.mp hp) r hr
  have hleft : ∑ p in Finset.range np,
      ∑ c in Finset.range (nc + 1), ind (games p r c) = np := by
    rw [Finset.sum_congr rfl hrow, Finset.sum_const, smul_eq_mul, mul_one,
      Finset.card_range]
  have hcol : ∀ c ∈ Finset.range nc,
      ∑ p in Finset.range np, ind (games p r c) = 4 := by
    intro c hc
    rw [← sumTo_eq_sum_range]
    exact hm.1 r hr c (Finset.mem_range.mp hc)
  have hsplit : ∑ c in Finset.range (nc + 1),
      ∑ p in Finset.range np, ind (games p r c)
      = 4 * nc + ∑ p in Finset.range np, ind (games p r nc) := by
    rw [Finset.sum_range_succ, Finset.sum_congr rfl hcol, Finset.sum_const,
      smul_eq_mul, Finset.card_range]
    ring
  have hbench : ∑ p in Finset.range np, ind (games p r nc)
      = ((Finset.range np).filter (fun p => games p r nc = true)).card := by
    rw [← sumTo_eq_sum_range, sumTo_ind_eq_card]
  rw [Finset.sum_comm] at hleft
  rw [hsplit, hbench] at hleft
  exact hleft

/-- C7: in every solution of GroupPairer's constraint model with
`num_bench > 0`, the bench slot (virtual court `num_courts`) holds
exactly `num_bench` players in every round, and those players are
exactly the ones the bench file records for that round (hard-pinned by
constraint 4; the per-round count follows from constraints 1 and 3).
The file hypotheses state that the committed BenchPlanner artifact is
well-formed: `num_bench * num_rounds` entries, per-round rows without
repetition, ids in `[1, num_players]` — all guaranteed by
`write_bench`, which emits each benched player of a round once. -/
theorem bench_slot_pinned (np nr nc : Nat)
    (games duo : Nat → Nat → Nat → Bool) (lst : List Int)
    (hm : TeamModel np nr nc games duo)
    (hpos : 0 < np - 4 * nc)
    (hlen : lst.length = (np - 4 * nc) * nr)
    (hnodup : ∀ r, r < nr → (benchRow (np - 4 * nc) lst r).Nodup)
    (hrange : ∀ r, r < nr → ∀ e ∈ benchRow (np - 4 * nc) lst r,
        1 ≤ e ∧ e ≤ (np : Int))
    (hpin : BenchPinned nr nc (np - 4 * nc) lst games) :
    ∀ r, r < nr →
      ((Finset.range np).filter (fun p => games p r nc = true)).card
        = np - 4 * nc
      ∧ (∀ p, p < np →
          (games p r nc = true ↔ ((p : Int) + 1) ∈ benchRow (np - 4 * nc) lst r)) := by
  intro r hr
  have hcount := bench_column_card np nr nc games duo hm r hr
  have hA : ((Finset.range np).filter (fun p => games p r nc = true)).card
      = np - 4 * nc := by omega
  have hrowlen : (benchRow (np - 4 * nc) lst r).length = np - 4 * nc := by
    have h1 : (np - 4 * nc) * (r + 1) ≤ (np - 4 * nc) * nr :=
      Nat.mul_le_mul_left _ hr
    have h2 : (np - 4 * nc) * (r + 1) = (np - 4 * nc) * r + (np - 4 * nc) := by
      ring
    have h3 : r * (np - 4 * nc) = (np - 4 * nc) * r := Nat.mul_comm _ _
    rw [benchRow, List.length_take, List.length_drop, hlen]
    omega
  have hBcard : (Finset.image (fun e : Int => (e - 1).toNat)
      (benchRow (np - 4 * nc) lst r).toFinset).card = np - 4 * nc := by
    rw [Finset.card_image_of_injOn, List.toFinset_card_of_nodup (hnodup r hr),
      hrowlen]
    intro x hx y hy hxy
    have hxy' : (x - 1).toNat = (y - 1).toNat := hxy
    have hxr := hrange r hr x (by simpa using hx)
    have hyr := hrange r hr y (by simpa using hy)
    omega
  have hBsub : Finset.image (fun e : Int => (e - 1).toNat)
      (benchRow (np - 4 * nc) lst r).toFinset
      ⊆ (Finset.range np).filter (fun p => games p r nc = true) := by
    intro x hx
    obtain ⟨e, he, rfl⟩ := Finset.mem_image.mp hx
    have heR := hrange r hr e (by simpa using he)
    have hpe := hpin r hr e (by simpa using he)
    exact Finset.mem_filter.mpr ⟨Finset.mem_range.mpr (by omega), hpe⟩
  have hle : ((Finset.range np).filter (fun p => games p r nc = true)).card
      ≤ (Finset.image (fun e : Int => (e - 1).toNat)
          (benchRow (np - 4 * nc) lst r).toFinset).card :=
    Nat.le_of_eq (hA.trans hBcard.symm)
  have hEq : (Finset.range np).filter (fun p => games p r nc = true)
      = Finset.image (fun e : Int => (e - 1).toNat)
          (benchRow (np - 4 * nc) lst r).toFinset :=
    (Finset.eq_of_subset_of_card_le hBsub hle).symm
  refine ⟨hA, fun p hp => ?_⟩
  constructor
  · intro hg
    have hpA : p ∈ (Finset.range np).filter (fun p => games p r nc = true) :=
      Finset.mem_filter.mpr ⟨Finset.mem_range.mpr hp, hg⟩
    rw [hEq] at hpA
    obtain ⟨e, he, hep⟩ := Finset.mem_image.mp hpA
    have heR := hrange r hr e (by simpa using he)
    have hepi : e = (p : Int) + 1 := by omega
    rw [← hepi]
    simpa using he
  · intro hmem
    have hpe := hpin r hr ((p : Int) + 1) hmem
    have : (((p : Int) + 1) - 1).toNat = p := by omega
    rwa [this] at hpe

/-- C7 witness: the pinning theorem applied to a concrete solution
(5 players, 5 rounds, 1 court, `num_bench = 1`) with the bench file
`[1,2,3,4,5]`, at round 0 and player 0. -/
theorem bench_slot_pinned_witness :
    TeamModel 5 5 1 g5 duo5 ∧ BenchPinned 5 1 (5 - 4 * 1) benchFile5 g5
    ∧ ((Finset.range 5).filter (fun p => g5 p 0 1 = true)).card = 5 - 4 * 1
    ∧ (g5 0 0 1 = true ↔ ((0 : Int) + 1) ∈ benchRow (5 - 4 * 1) benchFile5 0) :=
  ⟨by decide, by decide,
   (bench_slot_pinned 5 5 1 g5 duo5 benchFile5 (by decide) (by decide)
      (by decide) (by decide) (by decide) (by decide) 0 (by decide)).1,
   (bench_slot_pinned 5 5 1 g5 duo5 benchFile5 (by decide) (by decide)
      (by decide) (by decide) (by decide) (by decide) 0 (by decide)).2 0
     (by decide)⟩

theorem length_filter_range (np : Nat) (f : Nat → Bool) :
    ((List.range np).filter f).length = sumTo np (fun p => ind (f p)) := by
  induction np with
  | zero => rfl
  | succ n ih =>
    rw [List.range_succ, List.filter_append, List.length_append, ih, sumTo]
    congr 1
    by_cases h : f n <;> simp [h, ind]

theorem readIds_of_valid (np : Nat) :
    ∀ l : List Int, (∀ e ∈ l, 1 ≤ e ∧ e ≤ (np : Int)) →
      readIds np l = some (l.map (fun e => (e - 1).toNat)) := by
  intro l
  induction l with
  | nil => intro _; rfl
  | cons e rest ih =>
    intro h
    rw [readIds, if_pos (h e (List.mem_cons_self e rest)),
      ih (fun x hx => h x (List.mem_cons_of_mem e hx))]
    rfl

theorem flatMap_length_const {α : Type} (f : Nat → List α) (nb : Nat) :
    ∀ l : List Nat, (∀ i ∈ l, (f i).length = nb) →
      (l.flatMap f).length = l.length * nb := by
  intro l
  induction l with
  | nil => intro _; simp
  | cons i rest ih =>
    intro h
    rw [List.flatMap_cons, List.length_append, h i (List.mem_cons_self i rest),
      ih (fun j hj => h j (List.mem_cons_of_mem i hj)), List.length_cons,
      Nat.succ_mul]
    omega

theorem flatMap_slice {α : Type} (f : Nat → List α) (nb : Nat) :
    ∀ (l : List Nat) (k : Nat), k < l.length →
      (∀ i ∈ l, (f i).length = nb) →
      ((l.flatMap f).drop (k * nb)).take nb = f (l.getD k 0) := by
  intro l
  induction l with
  | nil => intro k hk _; simp at hk
  | cons i rest ih =>
    intro k hk hlen
    have hfi : (f i).length = nb := hlen i (List.mem_cons_self i rest)
    rw [List.flatMap_cons]
    cases k with
    | zero =>
      rw [Nat.zero_mul, List.drop_zero, ← hfi, List.take_left]
      rfl
    | succ k =>
      have hmul : (k + 1) * nb = (f i).length + k * nb := by
        rw [hfi]; ring
      rw [hmul, List.drop_append]
      exact ih k (by simpa using hk)
        (fun j hj => hlen j (List.mem_cons_of_mem i hj))

theorem range_getD (nr k : Nat) (hk : k < nr) :
    (List.range nr).getD k 0 = k := by
  rw [List.getD_eq_getElem?_getD, List.getElem?_range hk]
  rfl

/-- C9: round-trip of the bench interchange artifact.  For every bench
matrix with exactly `num_bench` benched players per round, writing it
with `write_bench` (a flat round-major array of 1-based ids,
`benchAlloc.py` lines 65-74) and re-reading it the way GroupPairer does
(`teamAlloc.py` lines 256-280, consuming `num_bench` consecutive
entries per round into `bench_assignements`) reconstructs the
bit-identical bench matrix. -/
theorem writeBench_readBench_roundtrip (np nr nb : Nat)
    (bench : Nat → Nat → Bool)
    (hcount : ∀ r, r < nr → sumTo np (fun p => ind (bench p r)) = nb) :
    readBench np nr nb (writeBench np nr bench)
      = some (benchMatrixOf np nr bench) := by
  have hrowlen : ∀ r, r < nr →
      (((List.range np).filter (fun p => bench p r)).map
        (fun p : Nat => (p : Int) + 1)).length = nb := by
    intro r hr
    rw [List.length_map, length_filter_range]
    exact hcount r hr
  have hwlen : (writeBench np nr bench).length = nr * nb := by
    rw [writeBench, flatMap_length_const _ nb _
      (fun i hi => hrowlen i (List.mem_range.mp hi)), List.length_range]
  have hnotlt : ¬ (writeBench np nr bench).length < nb * nr := by
    rw [hwlen, Nat.mul_comm]
    omega
  have htake : (writeBench np nr bench).take (nb * nr)
      = writeBench np nr bench :=
    List.take_of_length_le (by rw [hwlen, Nat.mul_comm])
  have hvalid : ∀ e ∈ writeBench np nr bench, 1 ≤ e ∧ e ≤ (np : Int) := by
    intro e he
    rw [writeBench] at he
    obtain ⟨r, _, her⟩ := List.mem_flatMap.mp he
    obtain ⟨p, hpf, rfl⟩ := List.mem_map.mp her
    have hp : p < np := List.mem_range.mp (List.mem_filter.mp hpf).1
    omega
  have hids : (writeBench np nr bench).map (fun e => (e - 1).toNat)
      = (List.range nr).flatMap
          (fun r => (List.range np).filter (fun p => bench p r)) := by
    rw [writeBench, List.map_flatMap]
    refine List.flatMap_congr ?_
    intro r _
    rw [List.map_map]
    refine List.map_congr_left ?_ |>.trans (List.map_id _)
    intro p _
    simp
  rw [readBench, if_neg hnotlt, htake, readIds_of_valid np _ hvalid]
  simp only [Option.some.injEq]
  rw [benchMatrixOf]
  refine List.map_congr_left ?_
  intro p hp
  refine List.map_congr_left ?_
  intro r hr
  rw [hids, flatMap_slice _ nb _ r (by simpa using hr)
    (fun i hi => by rw [length_filter_range]
                    exact hcount i (List.mem_range.mp hi)),
    range_getD nr r (List.mem_range.mp hr)]
  by_cases hb : bench p r
  · simp [List.mem_filter, List.mem_range.mp hp, hb]
  · simp [List.mem_filter, hb]

/-- C9 witness: the round-trip applied to the concrete matrix that
benches player `r` in round `r` (5 players, 2 rounds, `num_bench = 1`),
whose written file is `[1, 2]`. -/
theorem writeBench_readBench_roundtrip_witness :
    (∀ r, r < 2 → sumTo 5 (fun p => ind ((fun p r => p == r) p r)) = 1)
    ∧ readBench 5 2 1 (writeBench 5 2 (fun p r => p == r))
        = some (benchMatrixOf 5 2 (fun p r => p == r)) :=
  ⟨by decide,
   writeBench_readBench_roundtrip 5 2 1 (fun p r => p == r) (by decide)⟩

end RoundRobin
